import Mathlib

/-!
Shallow embedding of the skill_client repository (src/core/base_agent.py,
src/core/base_tools.py, src/core/skill_loader.py, src/core/llm_client.py).
External collaborators (the JSON parser, the YAML parser, the filesystem,
the chat-completion backend) are modelled as parameters or explicit maps;
all repository logic is translated directly from the Python source.
-/

/-- A minimal JSON-like value, enough for tool-call argument dictionaries. -/
inductive JVal where
  | str (s : String)
  | num (n : Int)
  deriving DecidableEq, Repr

/-- Python str() rendering of a value, used inside f-strings. -/
def JVal.pyStr : JVal → String
  | .str s => s
  | .num n => toString n

/-- A parsed argument dictionary (Python dict), as an ordered association list. -/
abbrev Args := List (String × JVal)

/-- The raw argument payload of a tool call, a tagged union over the Python
dynamic types that `BaseAgent._parse_tool_args` distinguishes: None, dict,
str, and anything else (carrying its type name). -/
inductive Payload where
  | absent
  | dict (a : Args)
  | str (s : String)
  | other (typeName : String)
  deriving DecidableEq

/-- Association-list lookup, modelling Python dict membership and indexing. -/
def lookupA {α : Type} (k : String) : List (String × α) → Option α
  | [] => none
  | (k', v) :: rest => if k' = k then some v else lookupA k rest

/-- Python `d[k] = v`: overwrite in place when the key exists (dicts preserve
insertion order on overwrite), append otherwise. -/
def setA {α : Type} (l : List (String × α)) (k : String) (v : α) : List (String × α) :=
  match l with
  | [] => [(k, v)]
  | (k', v') :: rest => if k' = k then (k', v) :: rest else (k', v') :: setA rest k v

/-- Python `d.get(k, default)`. -/
def pyGetD (kvs : List (String × String)) (k d : String) : String :=
  (lookupA k kvs).getD d

/-- Python `args.get(k, default)` over a JSON argument dictionary. -/
def pyArgsGetD (a : Args) (k : String) (d : JVal) : JVal :=
  (lookupA k a).getD d

/-- Python `str.strip()`: remove whitespace from both ends (on code points). -/
def pyStrip (s : String) : String :=
  ⟨((s.data.dropWhile Char.isWhitespace).reverse.dropWhile Char.isWhitespace).reverse⟩

/-- Python `s[:n]` slicing on code points. -/
def pyTake (s : String) (n : Nat) : String :=
  ⟨s.data.take n⟩

/-- Python `len(s)` in code points. -/
def strLen (s : String) : Nat :=
  s.data.length

/-- The truncated echo built by `BaseAgent._parse_tool_args` for unparseable
payloads: `snippet[:200] + "...(truncated)"` when longer than 200 characters. -/
def truncSnippet (s : String) : String :=
  let t := pyStrip s
  if strLen t > 200 then pyTake t 200 ++ "...(truncated)" else t

/-- `BaseAgent._parse_tool_args` (src/core/base_agent.py:155-192).
`sp` models `json.loads`, `lp` models `json.loads(…, strict=False)`;
each either returns a dictionary or raises (modelled by `Except.error`). -/
def parseToolArgs (sp lp : String → Except String Args)
    (arguments : Payload) (function_name : String) : Option Args × Option String :=
  match arguments with
  | .absent => (some [], none)
  | .dict a => (some a, none)
  | .other t =>
      (none, some ("Error: Tool '" ++ function_name ++
        "' arguments must be a JSON string, got " ++ t ++ "."))
  | .str s =>
      if pyStrip s = "" then (some [], none)
      else
        match sp s with
        | .ok a => (some a, none)
        | .error _ =>
          match lp s with
          | .ok a => (some a, none)
          | .error e =>
            (none, some ("Error: Invalid JSON arguments for tool '" ++ function_name ++
              "': " ++ e ++ ". Raw: " ++ truncSnippet s))

/-- The tool registry of `BaseToolExecutor` (src/core/base_tools.py:24-30):
a name-to-handler table. A handler models a Python coroutine that either
returns a result string or raises (modelled by `Except.error`). -/
structure ToolExec where
  tools : List (String × (Args → Except String String))

/-- `BaseToolExecutor.execute_tool` (src/core/base_tools.py:130-148):
unknown names and handler exceptions are both rendered as error text. -/
def executeTool (te : ToolExec) (tool_name : String) (args : Args) : String :=
  match lookupA tool_name te.tools with
  | none => "Error: Unknown tool '" ++ tool_name ++ "'"
  | some handler =>
    match handler args with
    | .ok r => r
    | .error e => "Error executing " ++ tool_name ++ ": " ++ e

/-- Level-1 metadata of one discovered skill (the dict built by
`SkillLoader._load_skill_metadata`). -/
structure SkillMeta where
  name : String
  description : String
  path : String
  license : String
  deriving DecidableEq, Repr

/-- A filesystem model: path to entry; an entry of `some c` is a file readable
as text `c`, `none` a file that exists but whose read raises; an absent path
does not exist. -/
abbrev FS := List (String × Option String)

/-- Filesystem entry lookup. -/
def fsEntry (fs : FS) (p : String) : Option (Option String) :=
  lookupA p fs

/-- Python `Path.exists()`. -/
def fsExists (fs : FS) (p : String) : Bool :=
  (fsEntry fs p).isSome

/-- Python `Path.read_text()`, returning `none` when it raises. -/
def fsRead (fs : FS) (p : String) : Option String :=
  (fsEntry fs p).getD none

/-- The three caches of `SkillLoader` (src/core/skill_loader.py:24-30). -/
structure LoaderState where
  skill_metadata : List (String × SkillMeta)
  skill_content : List (String × String)
  skill_resources : List (String × List (String × String))
  deriving DecidableEq, Repr

/-- `SkillLoader.__init__` (src/core/skill_loader.py:15-33): raises ValueError
iff the skills directory does not exist; all caches start empty. -/
def mkSkillLoader (rootExists : Bool) (skills_directory : String) : Except String LoaderState :=
  if rootExists then .ok ⟨[], [], []⟩
  else .error ("Skills directory not found: " ++ skills_directory)

/-- `SkillLoader.activate_skill` (src/core/skill_loader.py:102-140).
Returns (result, new state, number of file reads attempted). -/
def activateSkill (st : LoaderState) (fs : FS) (skill_name : String) :
    Option String × LoaderState × Nat :=
  match lookupA skill_name st.skill_metadata with
  | none => (none, st, 0)
  | some md =>
    match lookupA skill_name st.skill_content with
    | some c => (some c, st, 0)
    | none =>
      match fsRead fs (md.path ++ "/SKILL.md") with
      | some content =>
          (some content,
           { st with skill_content := setA st.skill_content skill_name content }, 1)
      | none => (none, st, 1)

/-- `SkillLoader.load_resource` (src/core/skill_loader.py:142-180).
Returns (result, new state, number of file reads attempted). -/
def loadResource (st : LoaderState) (fs : FS) (skill_name resource_path : String) :
    Option String × LoaderState × Nat :=
  match lookupA skill_name st.skill_metadata with
  | none => (none, st, 0)
  | some md =>
    let rp := md.path ++ "/" ++ resource_path
    if fsExists fs rp = false then (none, st, 0)
    else
      let st1 :=
        if (lookupA skill_name st.skill_resources).isSome then st
        else { st with skill_resources := st.skill_resources ++ [(skill_name, [])] }
      let resMap := (lookupA skill_name st1.skill_resources).getD []
      match lookupA resource_path resMap with
      | some c => (some c, st1, 0)
      | none =>
        match fsRead fs rp with
        | some content =>
            let st2 := { st1 with
              skill_resources :=
                setA st1.skill_resources skill_name (resMap ++ [(resource_path, content)]) }
            (some content, st2, 1)
        | none => (none, st1, 1)

/-- The front-matter delimiter `"---"` as a character list. -/
def sepDashes : List Char := ['-', '-', '-']

/-- Index of the first occurrence of `sep` in a character list, if any
(Python `str.find` semantics). -/
def firstOccur (sep : List Char) : List Char → Option Nat
  | [] => if sep.isPrefixOf ([] : List Char) then some 0 else none
  | c :: rest =>
    if sep.isPrefixOf (c :: rest) then some 0
    else (firstOccur sep rest).map (· + 1)

/-- CPython `str.split("---")`, one step per character: non-overlapping
left-to-right scan; the accumulator collects the current field in reverse.
The fuel argument only bounds the recursion; every step consumes at least
one character, so `s.length` fuel always suffices. -/
def pySplitFuel : Nat → List Char → List Char → List (List Char)
  | 0, s, acc => [acc.reverse ++ s]
  | fuel + 1, s, acc =>
    match s with
    | [] => [acc.reverse]
    | c :: rest =>
      if sepDashes.isPrefixOf (c :: rest) then
        acc.reverse :: pySplitFuel fuel (rest.drop 2) []
      else
        pySplitFuel fuel rest (c :: acc)

/-- Python `content.split("---")` (unlimited). -/
def pySplitDashes (s : List Char) : List (List Char) :=
  pySplitFuel s.length s []

/-- The text up to the first `"---"` occurrence, or the whole text when none
occurs: the spec-side description of the selected front-matter block. -/
def fmCut (s : List Char) : List Char :=
  match firstOccur sepDashes s with
  | some i => s.take i
  | none => s

/-- Python `"---".join(parts)`. -/
def joinDashes : List (List Char) → List Char
  | [] => []
  | [x] => x
  | x :: xs => x ++ sepDashes ++ joinDashes xs

/-- Python `content.split("---", 2)`: at most two splits, the tail rejoined. -/
def pySplit2Dashes (s : List Char) : List (List Char) :=
  match pySplitDashes s with
  | p0 :: p1 :: p2 :: rest => [p0, p1, joinDashes (p2 :: rest)]
  | l => l

/-- The front-matter text selected by `SkillLoader._load_skill_metadata`
(src/core/skill_loader.py:88-91): `parts[1]` of `content.split("---", 2)`
when the content starts with `"---"` and at least two parts result. -/
def frontmatterText (content : List Char) : Option (List Char) :=
  if sepDashes.isPrefixOf content then
    let parts := pySplit2Dashes content
    if parts.length ≥ 2 then some (parts.getD 1 []) else none
  else none

/-- Outcome of `yaml.safe_load` on the front-matter text: it raises, returns
a non-dict value (on which `.get` then raises AttributeError), or returns a
dict of string keys and values. -/
inductive YamlOutcome where
  | raised (msg : String)
  | nonDict
  | dict (kvs : List (String × String))
  deriving DecidableEq

/-- `SkillLoader._load_skill_metadata` (src/core/skill_loader.py:76-100) for a
marker file with the given content; `.error` models an exception escaping to
the caller, `.ok none` the explicit `return None` paths. -/
def loadSkillMetadata (yaml : String → YamlOutcome) (rootPath folderName content : String) :
    Except String (Option SkillMeta) :=
  match frontmatterText content.data with
  | none => .ok none
  | some fm =>
    match yaml (String.mk fm) with
    | .raised m => .error m
    | .nonDict => .error "AttributeError: value has no attribute get"
    | .dict kvs =>
        .ok (some
          { name := pyGetD kvs "name" folderName,
            description := pyGetD kvs "description" "",
            path := rootPath ++ "/" ++ folderName,
            license := pyGetD kvs "license" "" })

/-- One entry of the skills root directory, as seen by
`SkillLoader.discover_skills` when it iterates the root. -/
structure DirEntry where
  name : String
  isDir : Bool
  hasMarker : Bool
  markerContent : String
  deriving DecidableEq

/-- Predicate selecting skill folders: directories containing SKILL.md
(src/core/skill_loader.py:49-53). -/
def isSkillFolder (e : DirEntry) : Bool :=
  e.isDir && e.hasMarker

/-- One step of the discovery loop (src/core/skill_loader.py:59-68): a raised
exception logs a warning and skips; a `None` metadata is skipped silently;
otherwise the metadata is stored under its declared name. -/
def discoverStep (yaml : String → YamlOutcome) (rootPath : String)
    (acc : LoaderState × List String) (e : DirEntry) : LoaderState × List String :=
  match loadSkillMetadata yaml rootPath e.name e.markerContent with
  | .error msg => (acc.1, acc.2 ++ ["Failed to load " ++ e.name ++ ": " ++ msg])
  | .ok none => acc
  | .ok (some md) =>
      ({ acc.1 with skill_metadata := setA acc.1.skill_metadata md.name md }, acc.2)

/-- `SkillLoader.discover_skills` (src/core/skill_loader.py:35-74): returns
(new loader state, logged warnings, returned mapping). When no skill folder
exists the method returns a literal empty dict without touching state. -/
def discoverSkills (yaml : String → YamlOutcome) (rootPath : String)
    (entries : List DirEntry) (st : LoaderState) :
    LoaderState × List String × List (String × SkillMeta) :=
  let folders := entries.filter isSkillFolder
  if folders.isEmpty then (st, [], [])
  else
    let res := folders.foldl (discoverStep yaml rootPath) (st, [])
    (res.1, res.2, res.1.skill_metadata)

/-- One raw tool call as delivered by the OpenAI-compatible API
(src/core/llm_client.py:159-168): arguments arrive as a raw string. -/
structure RawToolCall where
  id : String
  type : String
  name : String
  arguments : String
  deriving DecidableEq

/-- The function part of a tool call seen by the agent. -/
structure ToolCallFn where
  name : String
  arguments : Payload
  deriving DecidableEq

/-- A tool call dict in the conversation. -/
structure ToolCall where
  id : String
  type : String
  fn : ToolCallFn
  deriving DecidableEq

/-- A conversation message, discriminated by role; an assistant message
carries an optional `tool_calls` key. -/
inductive Message where
  | system (content : String)
  | user (content : String)
  | assistant (content : Option String) (tool_calls : Option (List ToolCall))
  | tool (tool_call_id : String) (name : String) (content : String)
  deriving DecidableEq

/-- Outcome of one call to the chat-completion backend inside
`LLMClient.chat`: either `choices[0].message` (content and tool calls) or any
raised exception. -/
inductive BackendOutcome where
  | ok (content : Option String) (tool_calls : List RawToolCall)
  | failed (err : String)

/-- `LLMClient.chat` (src/core/llm_client.py:93-187): normalizes the backend
reply into one assistant message; any exception becomes a synthetic assistant
error message instead of propagating. -/
def llmChat (outcome : BackendOutcome) : List Message :=
  match outcome with
  | .failed e => [.assistant (some ("Error: " ++ e)) none]
  | .ok content tcs =>
    if tcs.isEmpty then [.assistant content none]
    else
      [.assistant content
        (some (tcs.map (fun tc => ⟨tc.id, tc.type, ⟨tc.name, .str tc.arguments⟩⟩)))]

/-- A tool schema as sent to the backend (name and description suffice here). -/
structure ToolDef where
  name : String
  description : String
  deriving DecidableEq

/-- The `use_skill` pseudo-tool definition (src/core/base_agent.py:109-135). -/
def useSkillToolDef : ToolDef :=
  ⟨"use_skill",
   "Activate a skill to access its full capabilities. Call this when you need to use a specific skill to complete the user's request."⟩

/-- `BaseToolExecutor.get_tool_definitions` (src/core/base_tools.py:32-128):
a static list, independent of the handler table. -/
def baseToolDefs : List ToolDef :=
  [⟨"read_file", "Read contents of a file. Supports text and binary files."⟩,
   ⟨"write_file", "Write content to a file. Creates the file if it doesn't exist, overwrites if it does."⟩,
   ⟨"list_files", "List files and directories in a directory."⟩,
   ⟨"execute_bash", "Execute a bash command and return the output. Use for running scripts, python commands, etc."⟩,
   ⟨"create_directory", "Create a directory. Creates parent directories if needed."⟩]

/-- The mutable state threaded through one `BaseAgent.chat` invocation:
the growing conversation, the activated-skill mapping, the loader (with its
filesystem), and the count of gateway calls made so far. -/
structure LoopState where
  msgs : List Message
  activated : List (String × String)
  loader : Option (LoaderState × FS)
  round : Nat

/-- The fixed collaborators of one agent: the backend (indexed by the number
of previous gateway calls), the tool executor, and the two JSON parse modes. -/
structure ChatCtx where
  backend : Nat → List Message → List ToolDef → List Message
  te : ToolExec
  sp : String → Except String Args
  lp : String → Except String Args

/-- `BaseAgent.activate_skill` (src/core/base_agent.py:65-89), given the
skill-name value extracted from the arguments: a non-string name is in no
dict, so activation fails without touching state. -/
def agentActivate (loader : Option (LoaderState × FS)) (activated : List (String × String))
    (skill_name : JVal) : Bool × List (String × String) × Option (LoaderState × FS) :=
  match loader with
  | none => (false, activated, none)
  | some (ls, fs) =>
    match skill_name with
    | .str s =>
      if (lookupA s activated).isSome then (true, activated, some (ls, fs))
      else
        match activateSkill ls fs s with
        | (some c, ls', _) => (true, setA activated s c, some (ls', fs))
        | (none, ls', _) => (false, activated, some (ls', fs))
    | .num _ => (false, activated, some (ls, fs))

/-- `BaseAgent._handle_use_skill` (src/core/base_agent.py:137-153). -/
def handleUseSkill (loader : Option (LoaderState × FS)) (activated : List (String × String))
    (skill_name _reason : JVal) :
    String × List (String × String) × Option (LoaderState × FS) :=
  let (ok, act', loader') := agentActivate loader activated skill_name
  (if ok then
    "Skill '" ++ skill_name.pyStr ++
      "' activated successfully. You now have access to its full instructions and capabilities."
   else
    "Failed to activate skill '" ++ skill_name.pyStr ++ "'. Please check if the skill exists.",
   act', loader')

/-- The dispatch of one tool call (src/core/base_agent.py:263-283): a parse
error becomes the result verbatim; `use_skill` goes to skill activation;
everything else goes to the tool registry. Returns (result text, new
activated set, new loader). -/
def toolCallOutcome (ctx : ChatCtx) (st : LoopState) (tc : ToolCall) :
    String × List (String × String) × Option (LoaderState × FS) :=
  match parseToolArgs ctx.sp ctx.lp tc.fn.arguments tc.fn.name with
  | (_, some e) => (e, st.activated, st.loader)
  | (parsedArgs, none) =>
    let args := parsedArgs.getD []
    if tc.fn.name = "use_skill" then
      handleUseSkill st.loader st.activated
        (pyArgsGetD args "skill_name" (.str "")) (pyArgsGetD args "reason" (.str ""))
    else
      (executeTool ctx.te tc.fn.name args, st.activated, st.loader)

/-- Processing of one tool call inside the ReAct loop
(src/core/base_agent.py:262-291): parse, dispatch (use_skill or registry),
append one correlated tool message. -/
def processToolCall (ctx : ChatCtx) (st : LoopState) (tc : ToolCall) : LoopState :=
  let out := toolCallOutcome ctx st tc
  { st with
    msgs := st.msgs ++ [.tool tc.id tc.fn.name out.1],
    activated := out.2.1,
    loader := out.2.2 }

/-- Processing of a whole tool-call list, in request order. -/
def processToolCalls (ctx : ChatCtx) (st : LoopState) (tcs : List ToolCall) : LoopState :=
  tcs.foldl (processToolCall ctx) st

/-- The tools offered on each round (src/core/base_agent.py:241-245). -/
def toolsFor (st : LoopState) : List ToolDef :=
  (if st.loader.isSome then [useSkillToolDef] else []) ++ baseToolDefs

/-- The fallback message returned when the conversation is empty at budget
exhaustion (src/core/base_agent.py:300-303). -/
def maxRoundsErrMsg : Message :=
  .assistant (some "Error: Max reasoning rounds reached") none

/-- The ReAct `while` loop of `BaseAgent.chat` (src/core/base_agent.py:235-303),
structured on the remaining round budget. Returns (result message, the list
of conversations sent to the gateway in order, final state). -/
def chatLoop (ctx : ChatCtx) : Nat → LoopState → Message × List (List Message) × LoopState
  | 0, st => (st.msgs.getLastD maxRoundsErrMsg, [], st)
  | fuel + 1, st =>
    let sent := st.msgs
    let resp := ctx.backend st.round sent (toolsFor st)
    let st1 : LoopState := { st with msgs := st.msgs ++ resp, round := st.round + 1 }
    match st1.msgs.getLast? with
    | some (.assistant _ (some tcs)) =>
      let st2 := processToolCalls ctx st1 tcs
      let rest := chatLoop ctx fuel st2
      (rest.1, sent :: rest.2.1, rest.2.2)
    | some (.assistant c none) => (.assistant c none, [sent], st1)
    | _ =>
      let rest := chatLoop ctx fuel st1
      (rest.1, sent :: rest.2.1, rest.2.2)

/-- The system-message synthesis at the top of `BaseAgent.chat`
(src/core/base_agent.py:208-232): base prompt, then the Level-1 catalog
summary of every discovered skill, then the full body of every activated
skill under per-skill headers. -/
def buildSystemContent (system_prompt : String) (loader : Option (LoaderState × FS))
    (activated : List (String × String)) : String :=
  let withSkills :=
    match loader with
    | none => system_prompt
    | some (ls, _) =>
      if ls.skill_metadata.isEmpty then system_prompt
      else
        system_prompt ++ "\n\n## Available Skills (Level 1)\n\n" ++
          "You have access to the following skills. To use a skill, call the use_skill function.\n\n" ++
          String.join (ls.skill_metadata.map
            (fun p => "- **" ++ p.1 ++ "**: " ++ p.2.description ++ "\n"))
  if activated.isEmpty then withSkills
  else
    withSkills ++ "\n\n## Activated Skills (Level 2)\n\n" ++
      String.join (activated.map
        (fun p => "### Skill: " ++ p.1 ++ "\n\n" ++ p.2 ++ "\n\n"))

/-- The per-invocation configuration of a `BaseAgent`. -/
structure Agent where
  system_prompt : String
  max_rounds : Nat
  activated : List (String × String)
  loader : Option (LoaderState × FS)

/-- `BaseAgent.chat` (src/core/base_agent.py:194-303): the system message is
synthesized once, before the loop, and never rebuilt inside it. -/
def agentChat (ctx : ChatCtx) (ag : Agent) (input : List Message) :
    Message × List (List Message) × LoopState :=
  let sys := buildSystemContent ag.system_prompt ag.loader ag.activated
  chatLoop ctx ag.max_rounds
    { msgs := Message.system sys :: input,
      activated := ag.activated,
      loader := ag.loader,
      round := 0 }

/-- Decidable substring test on code points, for stating containment facts
about concrete runs. -/
def listInfix (needle : List Char) : List Char → Bool
  | [] => needle.isPrefixOf ([] : List Char)
  | c :: rest => needle.isPrefixOf (c :: rest) || listInfix needle rest

/-- Substring test on strings. -/
def strContains (hay needle : String) : Bool :=
  listInfix needle.data hay.data

/-- The system content of the first message of a conversation, empty when the
conversation does not start with a system message. -/
def sysContentOf (conv : List Message) : String :=
  match conv.head? with
  | some (.system c) => c
  | _ => ""

/-- The tool messages produced for a list of requests paired with their
result texts, each correlated by its own identifier and tool name. -/
def zipToolMsgs (tcs : List ToolCall) (results : List String) : List Message :=
  (tcs.zip results).map (fun p => Message.tool p.1.id p.1.fn.name p.2)

/-- Concrete scenario instance (end-to-end scenario 1 of the spec): one
discovered skill `pptx` whose marker file holds the body `PPTX-FULL-BODY`. -/
def pptxMeta : SkillMeta :=
  ⟨"pptx", "create PowerPoint files", "skills/pptx", ""⟩

/-- Loader state after discovering only `pptx` (nothing activated). -/
def loaderScn : LoaderState :=
  ⟨[("pptx", pptxMeta)], [], []⟩

/-- Filesystem holding the `pptx` marker file. -/
def fsScn : FS :=
  [("skills/pptx/SKILL.md", some "PPTX-FULL-BODY")]

/-- The backend reply of round one: a `use_skill` request for `pptx`. -/
def useSkillCallScn : ToolCall :=
  ⟨"call1", "function",
   ⟨"use_skill", .dict [("skill_name", .str "pptx"), ("reason", .str "need it")]⟩⟩

/-- A backend that requests `pptx` activation on its first reply and answers
with plain text afterwards. -/
def backendScn : Nat → List Message → List ToolDef → List Message :=
  fun r _ _ =>
    if r = 0 then [.assistant none (some [useSkillCallScn])]
    else [.assistant (some "done") none]

/-- A context with the scenario backend, no registered tool handlers, and
JSON parsers that are never consulted (the payload is already structured). -/
def ctxScn : ChatCtx :=
  ⟨backendScn, ⟨[]⟩, fun _ => .error "unused", fun _ => .error "unused"⟩

/-- The scenario agent: catalog attached, nothing activated yet. -/
def agentScn : Agent :=
  ⟨"You are a helpful AI assistant with access to skills.", 10, [],
   some (loaderScn, fsScn)⟩

/-- The full scenario run of `BaseAgent.chat` on one user request. -/
def runScn : Message × List (List Message) × LoopState :=
  agentChat ctxScn agentScn [.user "make slides"]

/-- A concrete JSON-parser stub for witnesses: accepts the one document the
witness uses and rejects everything else with a json-style detail message. -/
def spStub : String → Except String Args := fun s =>
  if s = "\x7b\"a\":1\x7d" then .ok [("a", JVal.num 1)]
  else .error "Expecting value: line 1 column 1 (char 0)"

/-- A backend whose every reply ends in an assistant message carrying a
`tool_calls` key (the hypothesis of the exact-round-count property). -/
def AlwaysToolCalls (b : Nat → List Message → List ToolDef → List Message) : Prop :=
  ∀ r conv tools, ∃ c tcs rest, b r conv tools = rest ++ [Message.assistant c (some tcs)]

/-- A request for the unregistered tool `foo` (end-to-end scenario 3). -/
def fooCall : ToolCall := ⟨"id1", "function", ⟨"foo", Payload.dict []⟩⟩

/-- A context whose backend always requests the unknown tool `foo`, with an
empty tool registry. -/
def ctxFoo : ChatCtx :=
  ⟨fun _ _ _ => [.assistant none (some [fooCall])], ⟨[]⟩,
   fun _ => .error "unused", fun _ => .error "unused"⟩

/-- The initial loop state of the scenario-3 run: empty conversation, no
catalog. -/
def stFoo : LoopState := ⟨[], [], none, 0⟩

/-- A context whose backend always fails, as normalized by the gateway. -/
def ctxFail : ChatCtx :=
  ⟨fun _ _ _ => llmChat (.failed "Connection error"), ⟨[]⟩,
   fun _ => .error "unused", fun _ => .error "unused"⟩

/-- A YAML stub for witnesses: parses the one well-formed front matter the
witness uses and raises a scanner error on everything else. -/
def yamlStub : String → YamlOutcome := fun s =>
  if s = "\nname: pptx\ndescription: create PowerPoint files\n" then
    .dict [("name", "pptx"), ("description", "create PowerPoint files")]
  else .raised "yaml scanner error"

/-- A well-formed skill bundle directory entry. -/
def goodEntry : DirEntry :=
  ⟨"pptx", true, true,
   "---\nname: pptx\ndescription: create PowerPoint files\n---\nBody"⟩

/-- A subdirectory without the SKILL.md marker. -/
def noMarkerEntry : DirEntry := ⟨"notes", true, false, ""⟩

/-- A bundle whose front-matter header makes the YAML parser raise. -/
def badEntry : DirEntry := ⟨"broken", true, true, "---\n:::bad:::"⟩

/-! Helper lemmas shared by the claim theorems. -/

theorem lookupA_setA_self {α : Type} (l : List (String × α)) (k : String) (v : α) :
    lookupA k (setA l k v) = some v := by
  induction l with
  | nil => simp [setA, lookupA]
  | cons hd t ih =>
    obtain ⟨k', v'⟩ := hd
    by_cases hk : k' = k
    · simp [setA, hk, lookupA]
    · simp [setA, hk, lookupA, ih]

theorem lookupA_append_of_none {α : Type} {l : List (String × α)} {k : String}
    (h : lookupA k l = none) (m : List (String × α)) :
    lookupA k (l ++ m) = lookupA k m := by
  induction l with
  | nil => simp
  | cons hd t ih =>
    obtain ⟨k', v'⟩ := hd
    by_cases hk : k' = k
    · simp [lookupA, hk] at h
    · simp only [List.cons_append, lookupA, hk, if_false] at h ⊢
      exact ih h

theorem lookupA_single_self {α : Type} (k : String) (v : α) :
    lookupA k [(k, v)] = some v := by
  simp [lookupA]

/-- C3: tool-argument parsing is a total function (it never raises) and
satisfies the parsing contract: an absent payload and a blank string yield an
empty mapping with no error; a structured mapping passes through unchanged; a
non-string, non-mapping, non-absent payload yields a parse-error string
naming the tool and the payload's type; any other string is parsed strictly,
retried once leniently, and on double failure the error carries the tool
name, the underlying failure detail, and an echo of the payload truncated to
at most 200 characters. -/
theorem c3_parse_tool_args_contract (sp lp : String → Except String Args) (fn : String) :
    parseToolArgs sp lp .absent fn = (some [], none)
    ∧ (∀ s, pyStrip s = "" → parseToolArgs sp lp (.str s) fn = (some [], none))
    ∧ (∀ a, parseToolArgs sp lp (.dict a) fn = (some a, none))
    ∧ (∀ t, ∃ err, parseToolArgs sp lp (.other t) fn = (none, some err)
        ∧ ∃ p q r, err.data = p ++ fn.data ++ q ++ t.data ++ r)
    ∧ (∀ s a, pyStrip s ≠ "" → sp s = .ok a →
        parseToolArgs sp lp (.str s) fn = (some a, none))
    ∧ (∀ s e a, pyStrip s ≠ "" → sp s = .error e → lp s = .ok a →
        parseToolArgs sp lp (.str s) fn = (some a, none))
    ∧ (∀ s e1 e2, pyStrip s ≠ "" → sp s = .error e1 → lp s = .error e2 →
        ∃ err, parseToolArgs sp lp (.str s) fn = (none, some err)
          ∧ (∃ p q, err.data = p ++ fn.data ++ q)
          ∧ (∃ p q, err.data = p ++ e2.data ++ q)
          ∧ (∃ p r, err.data = p ++ (pyStrip s).data.take 200 ++ r
              ∧ ((pyStrip s).data.take 200).length ≤ 200)) := by
  refine ⟨rfl, ?_, ?_, ?_, ?_, ?_, ?_⟩
  · intro s hs
    simp [parseToolArgs, hs]
  · intro a
    rfl
  · intro t
    refine ⟨_, rfl, "Error: Tool '".data,
      "' arguments must be a JSON string, got ".data, ".".data, ?_⟩
    simp [String.data_append, List.append_assoc]
  · intro s a hs h1
    simp [parseToolArgs, hs, h1]
  · intro s e a hs h1 h2
    simp [parseToolArgs, hs, h1, h2]
  · intro s e1 e2 hs h1 h2
    have he : parseToolArgs sp lp (.str s) fn =
        (none, some ("Error: Invalid JSON arguments for tool '" ++ fn ++
          "': " ++ e2 ++ ". Raw: " ++ truncSnippet s)) := by
      simp [parseToolArgs, hs, h1, h2]
    refine ⟨_, he,
      ⟨"Error: Invalid JSON arguments for tool '".data,
        ("': " ++ e2 ++ ". Raw: " ++ truncSnippet s).data,
        by simp [String.data_append, List.append_assoc]⟩,
      ⟨("Error: Invalid JSON arguments for tool '" ++ fn ++ "': ").data,
        (". Raw: " ++ truncSnippet s).data,
        by simp [String.data_append, List.append_assoc]⟩, ?_⟩
    by_cases hlen : strLen (pyStrip s) > 200
    · refine ⟨("Error: Invalid JSON arguments for tool '" ++ fn ++ "': " ++ e2 ++
          ". Raw: ").data, "...(truncated)".data, ?_, ?_⟩
      · simp [truncSnippet, hlen, pyTake, String.data_append, List.append_assoc]
      · simp [List.length_take]
    · have hle : (pyStrip s).data.length ≤ 200 := by
        unfold strLen at hlen
        omega
      have htake : (pyStrip s).data.take 200 = (pyStrip s).data :=
        List.take_of_length_le hle
      refine ⟨("Error: Invalid JSON arguments for tool '" ++ fn ++ "': " ++ e2 ++
          ". Raw: ").data, [], ?_, ?_⟩
      · simp [truncSnippet, hlen, htake, String.data_append, List.append_assoc]
      · simp [List.length_take]

/-- Witness for C3: the contract instantiated with a concrete parser at the
spec's own test vectors, including the "not json" failure case. -/
theorem c3_parse_tool_args_contract_witness :
    parseToolArgs spStub spStub .absent "t" = (some [], none)
    ∧ parseToolArgs spStub spStub (.str "") "t" = (some [], none)
    ∧ parseToolArgs spStub spStub (.str "\x7b\"a\":1\x7d") "t" = (some [("a", JVal.num 1)], none)
    ∧ (∃ err, parseToolArgs spStub spStub (.str "not json") "t" = (none, some err)
        ∧ ∃ p q, err.data = p ++ "t".data ++ q) := by
  obtain ⟨h1, h2, _, _, h5, _, h7⟩ := c3_parse_tool_args_contract spStub spStub "t"
  refine ⟨h1, h2 "" (by decide), h5 _ [("a", JVal.num 1)] (by decide) (by rfl), ?_⟩
  obtain ⟨err, he, hfn, _, _⟩ :=
    h7 "not json" "Expecting value: line 1 column 1 (char 0)"
      "Expecting value: line 1 column 1 (char 0)" (by decide) (by rfl) (by rfl)
  exact ⟨err, he, hfn⟩

/-- C8: an unknown skill name makes both `activate_skill` and `load_resource`
return `None` without raising, and leaves every cache unchanged. -/
theorem c8_unknown_skill_contract (st : LoaderState) (fs : FS) (name p : String)
    (h : lookupA name st.skill_metadata = none) :
    activateSkill st fs name = (none, st, 0)
    ∧ loadResource st fs name p = (none, st, 0) := by
  constructor
  · simp [activateSkill, h]
  · simp [loadResource, h]

/-- Witness for C8: the unknown name `nosuch` against the concrete catalog
that only discovered `pptx`. -/
theorem c8_unknown_skill_contract_witness :
    activateSkill loaderScn fsScn "nosuch" = (none, loaderScn, 0)
    ∧ loadResource loaderScn fsScn "nosuch" "ref.md" = (none, loaderScn, 0) :=
  c8_unknown_skill_contract loaderScn fsScn "nosuch" "ref.md" (by decide)

theorem chatLoop_trace_pos (ctx : ChatCtx) (fuel : Nat) (st : LoopState) (h : 1 ≤ fuel) :
    1 ≤ (chatLoop ctx fuel st).2.1.length := by
  obtain ⟨k, rfl⟩ : ∃ k, fuel = k + 1 := ⟨fuel - 1, by omega⟩
  simp only [chatLoop]
  split <;> simp

theorem processToolCall_msgs (ctx : ChatCtx) (st : LoopState) (tc : ToolCall) :
    (processToolCall ctx st tc).msgs
      = st.msgs ++ [.tool tc.id tc.fn.name (toolCallOutcome ctx st tc).1] := rfl

theorem processToolCalls_msgs (ctx : ChatCtx) (tcs : List ToolCall) :
    ∀ st : LoopState, ∃ results : List String, results.length = tcs.length ∧
      (processToolCalls ctx st tcs).msgs = st.msgs ++ zipToolMsgs tcs results := by
  induction tcs with
  | nil =>
    intro st
    exact ⟨[], rfl, by simp [processToolCalls, zipToolMsgs]⟩
  | cons tc rest ih =>
    intro st
    obtain ⟨results, hlen, hmsgs⟩ := ih (processToolCall ctx st tc)
    refine ⟨(toolCallOutcome ctx st tc).1 :: results, by simp [hlen], ?_⟩
    have hstep : processToolCalls ctx st (tc :: rest)
        = processToolCalls ctx (processToolCall ctx st tc) rest := rfl
    rw [hstep, hmsgs, processToolCall_msgs]
    simp [zipToolMsgs, List.append_assoc]

/-- C4: the tool registry's `execute` returns text and never raises: an
unknown tool name yields an "Unknown tool" error result, a handler exception
is caught and rendered as descriptive text, the reasoning loop relays the
unknown-tool text as a correlated tool message, and after relaying it the
loop proceeds to another gateway round rather than terminating. -/
theorem c4_tool_registry_contract :
    (∀ (te : ToolExec) (n : String) (args : Args), lookupA n te.tools = none →
      executeTool te n args = "Error: Unknown tool '" ++ n ++ "'"
      ∧ ∃ p q, (executeTool te n args).data = p ++ "Unknown tool".data ++ q)
    ∧ (∀ (te : ToolExec) (n : String) (args : Args)
        (hd : Args → Except String String) (e : String),
        lookupA n te.tools = some hd → hd args = .error e →
        executeTool te n args = "Error executing " ++ n ++ ": " ++ e)
    ∧ (∀ (ctx : ChatCtx) (st : LoopState) (tc : ToolCall) (a : Args),
        tc.fn.arguments = .dict a → ¬tc.fn.name = "use_skill" →
        lookupA tc.fn.name ctx.te.tools = none →
        processToolCall ctx st tc = { st with
          msgs := st.msgs ++
            [.tool tc.id tc.fn.name ("Error: Unknown tool '" ++ tc.fn.name ++ "'")] })
    ∧ (∀ (ctx : ChatCtx) (fuel : Nat) (st : LoopState)
        (c : Option String) (tcs : List ToolCall),
        2 ≤ fuel →
        (st.msgs ++ ctx.backend st.round st.msgs (toolsFor st)).getLast?
          = some (.assistant c (some tcs)) →
        2 ≤ (chatLoop ctx fuel st).2.1.length) := by
  refine ⟨?_, ?_, ?_, ?_⟩
  · intro te n args h
    refine ⟨by simp [executeTool, h], "Error: ".data, (" '" ++ n ++ "'").data, ?_⟩
    simp [executeTool, h, String.data_append, List.append_assoc]
  · intro te n args hd e h1 h2
    simp [executeTool, h1, h2]
  · intro ctx st tc a hargs hname hlook
    simp [processToolCall, toolCallOutcome, parseToolArgs, hargs, hname, executeTool, hlook]
  · intro ctx fuel st c tcs hfuel hlast
    obtain ⟨k, rfl⟩ : ∃ k, fuel = k + 1 := ⟨fuel - 1, by omega⟩
    have hk : 1 ≤ k := by omega
    have key : ∀ st2 : LoopState, 1 ≤ (chatLoop ctx k st2).2.1.length :=
      fun st2 => chatLoop_trace_pos ctx k st2 hk
    simp only [chatLoop, hlast, List.length_cons]
    exact Nat.add_le_add_right (key _) 1

/-- Witness for C4: a registry with one faulting handler; the unknown tool
`foo` yields the error text, the faulting handler's exception is rendered,
and a two-round budget still makes a second gateway call after the
unknown-tool round. -/
theorem c4_tool_registry_contract_witness :
    executeTool ⟨[]⟩ "foo" [] = "Error: Unknown tool 'foo'"
    ∧ executeTool ⟨[("boom", fun _ => Except.error "kaput")]⟩ "boom" []
        = "Error executing boom: kaput"
    ∧ processToolCall ctxFoo stFoo fooCall = { stFoo with
        msgs := stFoo.msgs ++ [.tool "id1" "foo" "Error: Unknown tool 'foo'"] }
    ∧ 2 ≤ (chatLoop ctxFoo 2 stFoo).2.1.length := by
  obtain ⟨h1, h2, h3, h4⟩ := c4_tool_registry_contract
  refine ⟨(h1 ⟨[]⟩ "foo" [] (by simp [lookupA])).1,
    h2 ⟨[("boom", fun _ => Except.error "kaput")]⟩ "boom" []
      (fun _ => Except.error "kaput") "kaput" (by simp [lookupA]) rfl, ?_, ?_⟩
  · exact h3 ctxFoo stFoo fooCall [] rfl (by decide) rfl
  · exact h4 ctxFoo 2 stFoo none [fooCall] (by omega) (by rfl)

/-- C5: for an assistant reply carrying tool-call requests, the loop appends
exactly one tool message per request, in request order, immediately after
that assistant message, each tool message carrying the correlation
identifier and tool name of its originating request. -/
theorem c5_tool_message_order (ctx : ChatCtx) (st : LoopState)
    (base : List Message) (asst : Message) (tcs : List ToolCall)
    (hm : st.msgs = base ++ [asst]) :
    ∃ results : List String, results.length = tcs.length ∧
      (processToolCalls ctx st tcs).msgs = base ++ [asst] ++ zipToolMsgs tcs results := by
  obtain ⟨results, hlen, hmsgs⟩ := processToolCalls_msgs ctx tcs st
  exact ⟨results, hlen, by rw [hmsgs, hm]⟩

/-- Witness for C5: three requests A, B, C produce exactly the three tool
messages in order, correlated by identifier and name. -/
theorem c5_tool_message_order_witness :
    ∃ results : List String, results.length = 3 ∧
      (processToolCalls ctxFoo
        { msgs := [Message.user "u", Message.assistant none none],
          activated := [], loader := none, round := 1 }
        [⟨"idA", "function", ⟨"foo", Payload.dict []⟩⟩,
         ⟨"idB", "function", ⟨"bar", Payload.dict []⟩⟩,
         ⟨"idC", "function", ⟨"baz", Payload.dict []⟩⟩]).msgs
      = [Message.user "u"] ++ [Message.assistant none none] ++
        zipToolMsgs
          [⟨"idA", "function", ⟨"foo", Payload.dict []⟩⟩,
           ⟨"idB", "function", ⟨"bar", Payload.dict []⟩⟩,
           ⟨"idC", "function", ⟨"baz", Payload.dict []⟩⟩] results := by
  exact c5_tool_message_order ctxFoo _ [Message.user "u"] (Message.assistant none none)
    [⟨"idA", "function", ⟨"foo", Payload.dict []⟩⟩,
     ⟨"idB", "function", ⟨"bar", Payload.dict []⟩⟩,
     ⟨"idC", "function", ⟨"baz", Payload.dict []⟩⟩] rfl

theorem chatLoop_trace_le (ctx : ChatCtx) : ∀ (fuel : Nat) (st : LoopState),
    (chatLoop ctx fuel st).2.1.length ≤ fuel := by
  intro fuel
  induction fuel with
  | zero => intro st; simp [chatLoop]
  | succ k ih =>
    intro st
    simp only [chatLoop]
    split
    · simp only [List.length_cons]
      exact Nat.add_le_add_right (ih _) 1
    · simp
    · simp only [List.length_cons]
      exact Nat.add_le_add_right (ih _) 1

theorem chatLoop_always_toolcalls (ctx : ChatCtx) (hb : AlwaysToolCalls ctx.backend) :
    ∀ (fuel : Nat) (st : LoopState),
      (chatLoop ctx fuel st).2.1.length = fuel
      ∧ (chatLoop ctx fuel st).1 = (chatLoop ctx fuel st).2.2.msgs.getLastD maxRoundsErrMsg := by
  intro fuel
  induction fuel with
  | zero => intro st; exact ⟨rfl, rfl⟩
  | succ k ih =>
    intro st
    obtain ⟨c, tcs, rest, heq⟩ := hb st.round st.msgs (toolsFor st)
    have hlast : (st.msgs ++ ctx.backend st.round st.msgs (toolsFor st)).getLast?
        = some (Message.assistant c (some tcs)) := by
      rw [heq, ← List.append_assoc]
      simp [List.getLast?_concat]
    simp only [chatLoop, hlast]
    obtain ⟨ih1, ih2⟩ := ih (processToolCalls ctx
      ⟨st.msgs ++ ctx.backend st.round st.msgs (toolsFor st), st.activated, st.loader,
        st.round + 1⟩ tcs)
    exact ⟨by simp [ih1], ih2⟩

/-- C2: for every configured maximum of at least one round, the reasoning
loop makes at most `max_rounds` gateway calls; for a backend whose every
reply carries tool-call requests it makes exactly `max_rounds` gateway calls
and then returns the last message present in the conversation (which may be
a tool message) without raising. -/
theorem c2_round_budget (ctx : ChatCtx) (ag : Agent) (input : List Message)
    (hmax : 1 ≤ ag.max_rounds) :
    (agentChat ctx ag input).2.1.length ≤ ag.max_rounds
    ∧ (AlwaysToolCalls ctx.backend →
        (agentChat ctx ag input).2.1.length = ag.max_rounds
        ∧ (agentChat ctx ag input).1
            = (agentChat ctx ag input).2.2.msgs.getLastD maxRoundsErrMsg) := by
  have hpos : 0 < ag.max_rounds := hmax
  constructor
  · exact chatLoop_trace_le ctx ag.max_rounds _
  · intro hb
    exact chatLoop_always_toolcalls ctx hb ag.max_rounds _

/-- Witness for C2: a backend that always replies with a tool-call request
against a three-round budget makes exactly three gateway calls and returns
the conversation's last message. -/
theorem c2_round_budget_witness :
    (agentChat ctxFoo ⟨"sys", 3, [], none⟩ [Message.user "hi"]).2.1.length = 3
    ∧ (agentChat ctxFoo ⟨"sys", 3, [], none⟩ [Message.user "hi"]).1
        = (agentChat ctxFoo ⟨"sys", 3, [], none⟩
            [Message.user "hi"]).2.2.msgs.getLastD maxRoundsErrMsg := by
  have h := (c2_round_budget ctxFoo ⟨"sys", 3, [], none⟩ [Message.user "hi"] (by decide)).2
  exact h (fun r conv tools => ⟨none, [fooCall], [], rfl⟩)

/-- C9: on any backend failure, the model gateway returns a single synthetic
assistant message whose content is a textual error description and never
raises; consequently the reasoning loop treats it as a plain assistant reply
and terminates normally, after exactly one more gateway call. -/
theorem c9_gateway_failure (e : String) :
    llmChat (.failed e) = [.assistant (some ("Error: " ++ e)) none]
    ∧ (∀ (ctx : ChatCtx) (fuel : Nat) (st : LoopState), 1 ≤ fuel →
        ctx.backend st.round st.msgs (toolsFor st) = llmChat (.failed e) →
        (chatLoop ctx fuel st).1 = .assistant (some ("Error: " ++ e)) none
        ∧ (chatLoop ctx fuel st).2.1 = [st.msgs]) := by
  refine ⟨rfl, ?_⟩
  intro ctx fuel st hf hb
  obtain ⟨k, rfl⟩ : ∃ k, fuel = k + 1 := ⟨fuel - 1, by omega⟩
  have hlast : (st.msgs ++ ctx.backend st.round st.msgs (toolsFor st)).getLast?
      = some (Message.assistant (some ("Error: " ++ e)) none) := by
    rw [hb]
    simp [llmChat, List.getLast?_concat]
  exact ⟨by simp only [chatLoop, hlast], by simp only [chatLoop, hlast]⟩

/-- Witness for C9: a failing backend makes the loop return the synthetic
error reply after one gateway call. -/
theorem c9_gateway_failure_witness :
    (chatLoop ctxFail 5 stFoo).1
      = Message.assistant (some ("Error: " ++ "Connection error")) none
    ∧ (chatLoop ctxFail 5 stFoo).2.1 = [stFoo.msgs] := by
  exact (c9_gateway_failure "Connection error").2 ctxFail 5 stFoo (by omega) rfl

set_option maxRecDepth 10000 in
/-- C1: the claim fails on the code. In the end-to-end scenario the first
round activates `pptx` via `use_skill` (the appended tool message reports
success and the activated set holds the full body), yet the system prompt
sent to the gateway on the second round of the same chat invocation contains
neither the body nor any "Activated Skills" section: `BaseAgent.chat`
synthesizes the system message once, before the loop, and never rebuilds it,
while the first round's prompt does carry the Level-1 catalog summary. -/
theorem c1_prompt_injection_code_bug :
    runScn.2.2.activated = [("pptx", "PPTX-FULL-BODY")]
    ∧ runScn.2.1.length = 2
    ∧ (runScn.2.1.getD 1 []).contains
        (Message.tool "call1" "use_skill"
          "Skill 'pptx' activated successfully. You now have access to its full instructions and capabilities.")
        = true
    ∧ strContains (sysContentOf (runScn.2.1.getD 0 [])) "create PowerPoint files" = true
    ∧ strContains (sysContentOf (runScn.2.1.getD 1 [])) "PPTX-FULL-BODY" = false
    ∧ strContains (sysContentOf (runScn.2.1.getD 1 [])) "Activated Skills" = false :=
  ⟨by rfl, by rfl, by rfl, by rfl, by rfl, by rfl⟩

/-- C6: `activate_skill` is idempotent (a second activation returns the
cached body with no further read); `load_resource` caches per (skill, path)
pair (a second call returns identical content with no further read); and the
two caches are independent: `load_resource` neither reads nor depends on the
body cache, and succeeds for a discovered skill whose body was never
activated. -/
theorem c6_cache_contract :
    (∀ (st : LoaderState) (fs : FS) (n c : String) (st1 : LoaderState) (k : Nat),
      activateSkill st fs n = (some c, st1, k) →
      activateSkill st1 fs n = (some c, st1, 0))
    ∧ (∀ (st : LoaderState) (fs : FS) (n p c : String) (st1 : LoaderState) (k : Nat),
        loadResource st fs n p = (some c, st1, k) →
        loadResource st1 fs n p = (some c, st1, 0))
    ∧ (∀ (st : LoaderState) (fs : FS) (n p : String) (sc : List (String × String)),
        (loadResource { st with skill_content := sc } fs n p).1
          = (loadResource st fs n p).1)
    ∧ (∀ (st : LoaderState) (fs : FS) (n p c : String) (md : SkillMeta),
        lookupA n st.skill_metadata = some md →
        lookupA n st.skill_resources = none →
        fsEntry fs (md.path ++ "/" ++ p) = some (some c) →
        (loadResource st fs n p).1 = some c) := by
  refine ⟨?_, ?_, ?_, ?_⟩
  · intro st fs n c st1 k h
    cases hm : lookupA n st.skill_metadata with
    | none => simp [activateSkill, hm] at h
    | some md =>
      cases hc : lookupA n st.skill_content with
      | some c0 =>
        simp only [activateSkill, hm, hc, Prod.mk.injEq, Option.some.injEq] at h
        obtain ⟨rfl, rfl, rfl⟩ := h
        simp [activateSkill, hm, hc]
      | none =>
        cases hr : fsRead fs (md.path ++ "/SKILL.md") with
        | none => simp [activateSkill, hm, hc, hr] at h
        | some content =>
          simp only [activateSkill, hm, hc, hr, Prod.mk.injEq, Option.some.injEq] at h
          obtain ⟨rfl, rfl, rfl⟩ := h
          simp [activateSkill, hm, lookupA_setA_self]
  · intro st fs n p c st1 k h
    cases hm : lookupA n st.skill_metadata with
    | none => simp [loadResource, hm] at h
    | some md =>
      by_cases hex : fsExists fs (md.path ++ "/" ++ p) = false
      · simp [loadResource, hm, hex] at h
      · cases hres : lookupA n st.skill_resources with
        | some m0 =>
          cases hcache : lookupA p m0 with
          | some c0 =>
            simp only [loadResource, hm, hex, hres, if_neg, Option.isSome_some, if_true,
              Option.getD_some, Prod.mk.injEq, Option.some.injEq, reduceCtorEq] at h
            obtain ⟨rfl, rfl, rfl⟩ := by
              rw [hcache] at h
              exact h
            simp [loadResource, hm, hex, hres, hcache]
          | none =>
            cases hr : fsRead fs (md.path ++ "/" ++ p) with
            | none =>
              simp [loadResource, hm, hex, hres, hcache, hr] at h
            | some content =>
              simp only [loadResource, hm, hex, hres, if_neg, Option.isSome_some, if_true,
                Option.getD_some, hcache, hr, Prod.mk.injEq, Option.some.injEq,
                reduceCtorEq] at h
              obtain ⟨rfl, rfl, rfl⟩ := h
              simp [loadResource, hm, hex, hcache, lookupA_setA_self,
                lookupA_append_of_none, lookupA]
        | none =>
          have hinit : lookupA n (st.skill_resources ++ [(n, [])]) = some [] := by
            rw [lookupA_append_of_none hres]
            simp [lookupA]
          cases hr : fsRead fs (md.path ++ "/" ++ p) with
          | none =>
            simp [loadResource, hm, hex, hres, hinit, lookupA, hr] at h
          | some content =>
            simp only [loadResource, hm, hex, hres, Option.isSome_none, Bool.false_eq_true,
              if_false, hinit, Option.getD_some, lookupA, hr, Prod.mk.injEq,
              Option.some.injEq, reduceCtorEq] at h
            obtain ⟨rfl, rfl, rfl⟩ := h
            simp [loadResource, hm, hex, lookupA_setA_self, lookupA]
  · intro st fs n p sc
    cases hm : lookupA n st.skill_metadata with
    | none => simp [loadResource, hm]
    | some md =>
      by_cases hex : fsExists fs (md.path ++ "/" ++ p) = false
      · simp [loadResource, hm, hex]
      · cases hres : lookupA n st.skill_resources with
        | some m0 =>
          cases hcache : lookupA p m0 with
          | some c0 => simp [loadResource, hm, hex, hres, hcache]
          | none =>
            cases hr : fsRead fs (md.path ++ "/" ++ p) with
            | some content => simp [loadResource, hm, hex, hres, hcache, hr]
            | none => simp [loadResource, hm, hex, hres, hcache, hr]
        | none =>
          have hinit : lookupA n (st.skill_resources ++ [(n, [])]) = some [] := by
            rw [lookupA_append_of_none hres]
            simp [lookupA]
          cases hr : fsRead fs (md.path ++ "/" ++ p) with
          | some content => simp [loadResource, hm, hex, hres, hinit, lookupA, hr]
          | none => simp [loadResource, hm, hex, hres, hinit, lookupA, hr]
  · intro st fs n p c md hm hres hfs
    have hex : fsExists fs (md.path ++ "/" ++ p) = true := by
      simp [fsExists, hfs]
    have hr : fsRead fs (md.path ++ "/" ++ p) = some c := by
      simp [fsRead, hfs]
    have hinit : lookupA n (st.skill_resources ++ [(n, [])]) = some [] := by
      rw [lookupA_append_of_none hres]
      simp [lookupA]
    simp [loadResource, hm, hex, hres, hinit, lookupA, hr]

/-- Witness for C6: against the concrete catalog, a second activation of
`pptx` returns the cached body with zero reads; a second resource load of
the marker file returns the cached content with zero reads; the result of a
resource load is unchanged by an arbitrary body cache; and a resource load
succeeds for the discovered but never-activated skill. -/
theorem c6_cache_contract_witness :
    activateSkill ⟨[("pptx", pptxMeta)], [("pptx", "PPTX-FULL-BODY")], []⟩ fsScn "pptx"
      = (some "PPTX-FULL-BODY", ⟨[("pptx", pptxMeta)], [("pptx", "PPTX-FULL-BODY")], []⟩, 0)
    ∧ loadResource
        ⟨[("pptx", pptxMeta)], [], [("pptx", [("SKILL.md", "PPTX-FULL-BODY")])]⟩
        fsScn "pptx" "SKILL.md"
      = (some "PPTX-FULL-BODY",
         ⟨[("pptx", pptxMeta)], [], [("pptx", [("SKILL.md", "PPTX-FULL-BODY")])]⟩, 0)
    ∧ (loadResource ⟨[("pptx", pptxMeta)], [("other", "body")], []⟩ fsScn "pptx" "SKILL.md").1
        = (loadResource loaderScn fsScn "pptx" "SKILL.md").1
    ∧ (loadResource loaderScn fsScn "pptx" "SKILL.md").1 = some "PPTX-FULL-BODY" := by
  obtain ⟨ha, hb, hc, hd⟩ := c6_cache_contract
  refine ⟨?_, ?_, ?_, ?_⟩
  · exact ha loaderScn fsScn "pptx" "PPTX-FULL-BODY"
      ⟨[("pptx", pptxMeta)], [("pptx", "PPTX-FULL-BODY")], []⟩ 1 (by rfl)
  · exact hb loaderScn fsScn "pptx" "SKILL.md" "PPTX-FULL-BODY"
      ⟨[("pptx", pptxMeta)], [], [("pptx", [("SKILL.md", "PPTX-FULL-BODY")])]⟩ 1 (by rfl)
  · exact hc loaderScn fsScn "pptx" "SKILL.md" [("other", "body")]
  · exact hd loaderScn fsScn "pptx" "SKILL.md" "PPTX-FULL-BODY" pptxMeta
      (by rfl) (by rfl) (by rfl)

theorem discoverFold_fst_warnfree (yaml : String → YamlOutcome) (rootPath : String) :
    ∀ (l : List DirEntry) (s : LoaderState) (w w' : List String),
      (l.foldl (discoverStep yaml rootPath) (s, w)).1
        = (l.foldl (discoverStep yaml rootPath) (s, w')).1 := by
  intro l
  induction l with
  | nil => intro s w w'; rfl
  | cons e rest ih =>
    intro s w w'
    cases hload : loadSkillMetadata yaml rootPath e.name e.markerContent with
    | error m =>
      simp only [List.foldl_cons, discoverStep, hload]
      exact ih s _ _
    | ok o =>
      cases o with
      | none =>
        simp only [List.foldl_cons, discoverStep, hload]
        exact ih s w w'
      | some md =>
        simp only [List.foldl_cons, discoverStep, hload]
        exact ih _ w w'

theorem discoverFold_snd_mono (yaml : String → YamlOutcome) (rootPath : String) :
    ∀ (l : List DirEntry) (s : LoaderState) (w : List String),
      ∃ d, (l.foldl (discoverStep yaml rootPath) (s, w)).2 = w ++ d := by
  intro l
  induction l with
  | nil => intro s w; exact ⟨[], by simp⟩
  | cons e rest ih =>
    intro s w
    cases hload : loadSkillMetadata yaml rootPath e.name e.markerContent with
    | error m =>
      obtain ⟨d, hd⟩ := ih s (w ++ ["Failed to load " ++ e.name ++ ": " ++ m])
      exact ⟨("Failed to load " ++ e.name ++ ": " ++ m) :: d, by
        simp only [List.foldl_cons, discoverStep, hload, hd, List.append_assoc,
          List.cons_append, List.nil_append]⟩
    | ok o =>
      cases o with
      | none =>
        obtain ⟨d, hd⟩ := ih s w
        exact ⟨d, by simp only [List.foldl_cons, discoverStep, hload, hd]⟩
      | some md =>
        obtain ⟨d, hd⟩ := ih
          ({ s with skill_metadata := setA s.skill_metadata md.name md }) w
        exact ⟨d, by simp only [List.foldl_cons, discoverStep, hload, hd]⟩

theorem discoverFold_meta_of_invalid (yaml : String → YamlOutcome) (rootPath : String) :
    ∀ (l : List DirEntry) (s : LoaderState) (w : List String),
      (∀ e ∈ l, ∀ md, loadSkillMetadata yaml rootPath e.name e.markerContent ≠ .ok (some md)) →
      (l.foldl (discoverStep yaml rootPath) (s, w)).1.skill_metadata = s.skill_metadata := by
  intro l
  induction l with
  | nil => intro s w _; rfl
  | cons e rest ih =>
    intro s w hv
    cases hload : loadSkillMetadata yaml rootPath e.name e.markerContent with
    | error m =>
      simp only [List.foldl_cons, discoverStep, hload]
      exact ih s _ (fun x hx => hv x (List.mem_cons_of_mem e hx))
    | ok o =>
      cases o with
      | none =>
        simp only [List.foldl_cons, discoverStep, hload]
        exact ih s w (fun x hx => hv x (List.mem_cons_of_mem e hx))
      | some md =>
        exact absurd hload (hv e (List.mem_cons_self e rest) md)

/-- C7: discovery over any root: a subdirectory without the SKILL.md marker
is skipped silently (the result is as if it were absent); a bundle whose
front-matter header parse raises is skipped with a logged warning while
discovery continues, the resulting state being exactly that of the remaining
bundles and the returned mapping that state's metadata; a root with no valid
bundle yields an empty mapping without failing; and only a non-existent root
directory is a fatal error, raised at construction. -/
theorem c7_discovery_contract (yaml : String → YamlOutcome) (rootPath : String) :
    (∀ (ex : Bool) (d : String), (∃ err, mkSkillLoader ex d = .error err) ↔ ex = false)
    ∧ (∀ (pre post : List DirEntry) (e : DirEntry) (st : LoaderState),
        isSkillFolder e = false →
        discoverSkills yaml rootPath (pre ++ e :: post) st
          = discoverSkills yaml rootPath (pre ++ post) st)
    ∧ (∀ (pre post : List DirEntry) (e : DirEntry) (st : LoaderState) (m : String),
        isSkillFolder e = true →
        loadSkillMetadata yaml rootPath e.name e.markerContent = .error m →
        (discoverSkills yaml rootPath (pre ++ e :: post) st).1
            = (discoverSkills yaml rootPath (pre ++ post) st).1
        ∧ (∃ w1 w2, (discoverSkills yaml rootPath (pre ++ e :: post) st).2.1
            = w1 ++ ("Failed to load " ++ e.name ++ ": " ++ m) :: w2)
        ∧ (discoverSkills yaml rootPath (pre ++ e :: post) st).2.2
            = (discoverSkills yaml rootPath (pre ++ e :: post) st).1.skill_metadata)
    ∧ (∀ entries : List DirEntry,
        (∀ e ∈ entries, isSkillFolder e = true →
          ∀ md, loadSkillMetadata yaml rootPath e.name e.markerContent ≠ .ok (some md)) →
        (discoverSkills yaml rootPath entries ⟨[], [], []⟩).2.2 = []) := by
  refine ⟨?_, ?_, ?_, ?_⟩
  · intro ex d
    cases ex
    · simp [mkSkillLoader]
    · simp [mkSkillLoader]
  · intro pre post e st hf
    have hfilt : (pre ++ e :: post).filter isSkillFolder
        = (pre ++ post).filter isSkillFolder := by
      simp [List.filter_append, List.filter_cons, hf]
    simp [discoverSkills, hfilt]
  · intro pre post e st m hf hload
    have hsplit : (pre ++ e :: post).filter isSkillFolder
        = pre.filter isSkillFolder ++ e :: post.filter isSkillFolder := by
      simp [List.filter_append, List.filter_cons, hf]
    have hsplit2 : (pre ++ post).filter isSkillFolder
        = pre.filter isSkillFolder ++ post.filter isSkillFolder := by
      simp [List.filter_append]
    have hne : ((pre ++ e :: post).filter isSkillFolder).isEmpty = false := by
      rw [hsplit]
      cases pre.filter isSkillFolder <;> rfl
    have hfoldw : (pre.filter isSkillFolder ++ e :: post.filter isSkillFolder).foldl
          (discoverStep yaml rootPath) (st, [])
        = (post.filter isSkillFolder).foldl (discoverStep yaml rootPath)
            (((pre.filter isSkillFolder).foldl (discoverStep yaml rootPath) (st, [])).1,
             ((pre.filter isSkillFolder).foldl (discoverStep yaml rootPath) (st, [])).2
               ++ ["Failed to load " ++ e.name ++ ": " ++ m]) := by
      rw [List.foldl_append, List.foldl_cons]
      have hstep : discoverStep yaml rootPath
            ((pre.filter isSkillFolder).foldl (discoverStep yaml rootPath) (st, [])) e
          = (((pre.filter isSkillFolder).foldl (discoverStep yaml rootPath) (st, [])).1,
             ((pre.filter isSkillFolder).foldl (discoverStep yaml rootPath) (st, [])).2
               ++ ["Failed to load " ++ e.name ++ ": " ++ m]) := by
        simp [discoverStep, hload]
      rw [hstep]
    have hstate : (((pre ++ e :: post).filter isSkillFolder).foldl
          (discoverStep yaml rootPath) (st, [])).1
        = (((pre ++ post).filter isSkillFolder).foldl
            (discoverStep yaml rootPath) (st, [])).1 := by
      rw [hsplit, hsplit2, hfoldw, List.foldl_append]
      exact discoverFold_fst_warnfree yaml rootPath _ _ _ _
    refine ⟨?_, ?_, ?_⟩
    · by_cases hemp : ((pre ++ post).filter isSkillFolder).isEmpty
      · have hnil : (pre ++ post).filter isSkillFolder = [] := by
          simpa using hemp
        have hprenil : pre.filter isSkillFolder = [] := by
          rw [hsplit2] at hnil
          exact (List.append_eq_nil.mp hnil).1
        have hpostnil : post.filter isSkillFolder = [] := by
          rw [hsplit2] at hnil
          exact (List.append_eq_nil.mp hnil).2
        simp only [discoverSkills, hne, Bool.false_eq_true, if_false, hemp, if_true]
        rw [hsplit, hprenil, hpostnil]
        simp [discoverStep, hload]
      · simp only [discoverSkills, hne, hemp, Bool.false_eq_true, if_false]
        exact hstate
    · simp only [discoverSkills, hne, Bool.false_eq_true, if_false]
      rw [hsplit, hfoldw]
      obtain ⟨d, hd⟩ := discoverFold_snd_mono yaml rootPath (post.filter isSkillFolder)
        (((pre.filter isSkillFolder).foldl (discoverStep yaml rootPath) (st, [])).1)
        ((((pre.filter isSkillFolder).foldl (discoverStep yaml rootPath) (st, [])).2)
          ++ ["Failed to load " ++ e.name ++ ": " ++ m])
      refine ⟨((pre.filter isSkillFolder).foldl (discoverStep yaml rootPath) (st, [])).2, d, ?_⟩
      rw [hd]
      simp
    · simp only [discoverSkills, hne, Bool.false_eq_true, if_false]
  · intro entries hv
    by_cases hemp : (entries.filter isSkillFolder).isEmpty
    · simp [discoverSkills, hemp]
    · simp only [discoverSkills, hemp, Bool.false_eq_true, if_false]
      exact discoverFold_meta_of_invalid yaml rootPath _ _ _
        (fun x hx md => hv x (List.mem_filter.mp hx).1 (List.mem_filter.mp hx).2 md)

theorem dashes_isPrefixOf_iff (s : List Char) :
    sepDashes.isPrefixOf s = true ↔ ∃ t, s = '-' :: '-' :: '-' :: t := by
  constructor
  · intro hs
    rcases s with _ | ⟨a, s⟩
    · simp [sepDashes, List.isPrefixOf] at hs
    rcases s with _ | ⟨b, s⟩
    · simp [sepDashes, List.isPrefixOf] at hs
    rcases s with _ | ⟨d, s⟩
    · simp [sepDashes, List.isPrefixOf] at hs
    simp only [sepDashes, List.isPrefixOf, Bool.and_eq_true, beq_iff_eq] at hs
    obtain ⟨h1, ⟨h2, ⟨h3, _⟩⟩⟩ := hs
    exact ⟨s, by rw [← h1, ← h2, ← h3]⟩
  · rintro ⟨t, rfl⟩
    simp [sepDashes, List.isPrefixOf]

theorem pySplitFuel_ne_nil : ∀ (fuel : Nat) (s acc : List Char), pySplitFuel fuel s acc ≠ [] := by
  intro fuel
  induction fuel with
  | zero => intro s acc; simp [pySplitFuel]
  | succ k ih =>
    intro s acc
    cases s with
    | nil => simp [pySplitFuel]
    | cons c rest =>
      simp only [pySplitFuel]
      split
      · simp
      · exact ih rest (c :: acc)

theorem pySplitFuel_head : ∀ (fuel : Nat) (s acc : List Char), s.length ≤ fuel →
    (pySplitFuel fuel s acc).head? = some (acc.reverse ++ fmCut s) := by
  intro fuel
  induction fuel with
  | zero =>
    intro s acc h
    have hs : s = [] := List.length_eq_zero.mp (Nat.le_zero.mp h)
    subst hs
    simp [pySplitFuel, fmCut, firstOccur, sepDashes, List.isPrefixOf]
  | succ k ih =>
    intro s acc h
    cases s with
    | nil => simp [pySplitFuel, fmCut, firstOccur, sepDashes, List.isPrefixOf]
    | cons c rest =>
      by_cases hp : sepDashes.isPrefixOf (c :: rest) = true
      · simp [pySplitFuel, hp, fmCut, firstOccur]
      · have hp' : sepDashes.isPrefixOf (c :: rest) = false := by
          cases hb : sepDashes.isPrefixOf (c :: rest)
          · rfl
          · exact absurd hb hp
        have hrest : rest.length ≤ k := by
          simp only [List.length_cons] at h
          omega
        simp only [pySplitFuel, hp', Bool.false_eq_true, if_false]
        rw [ih rest (c :: acc) hrest]
        simp only [fmCut, firstOccur, hp', Bool.false_eq_true, if_false]
        cases hfo : firstOccur sepDashes rest with
        | none => simp
        | some i => simp

/-- C10: skill metadata parsing tolerates a missing closing delimiter: for
content beginning with `"---"`, the parsed front matter is exactly the text
between the first `"---"` and the next occurrence of `"---"` anywhere in the
file, or the entire remainder when no second `"---"` occurs; in the latter
case the bundle is still discovered whenever its YAML parses to a mapping. -/
theorem c10_frontmatter_contract :
    (∀ cs : List Char, sepDashes.isPrefixOf cs = true →
      frontmatterText cs = some (fmCut (cs.drop 3)))
    ∧ (∀ (yaml : String → YamlOutcome) (rootPath folderName content : String)
        (kvs : List (String × String)),
        sepDashes.isPrefixOf content.data = true →
        firstOccur sepDashes (content.data.drop 3) = none →
        yaml (String.mk (content.data.drop 3)) = .dict kvs →
        loadSkillMetadata yaml rootPath folderName content
          = .ok (some { name := pyGetD kvs "name" folderName,
                        description := pyGetD kvs "description" "",
                        path := rootPath ++ "/" ++ folderName,
                        license := pyGetD kvs "license" "" })) := by
  have key : ∀ cs : List Char, sepDashes.isPrefixOf cs = true →
      frontmatterText cs = some (fmCut (cs.drop 3)) := by
    intro cs hcs
    obtain ⟨rest, rfl⟩ := (dashes_isPrefixOf_iff cs).mp hcs
    have hl : ('-' :: '-' :: '-' :: rest).length = rest.length + 2 + 1 := by
      simp only [List.length_cons]
    have hsplit : pySplitDashes ('-' :: '-' :: '-' :: rest)
        = [] :: pySplitFuel (rest.length + 2) rest [] := by
      rw [pySplitDashes, hl]
      simp only [pySplitFuel, hcs, if_true]
      rfl
    obtain ⟨h, t, hht⟩ : ∃ h t, pySplitFuel (rest.length + 2) rest [] = h :: t := by
      cases hps : pySplitFuel (rest.length + 2) rest [] with
      | nil => exact absurd hps (pySplitFuel_ne_nil _ _ _)
      | cons h t => exact ⟨h, t, rfl⟩
    have hh : h = fmCut rest := by
      have hd := pySplitFuel_head (rest.length + 2) rest [] (by omega)
      rw [hht] at hd
      simp only [List.head?_cons, List.reverse_nil, List.nil_append,
        Option.some.injEq] at hd
      exact hd
    cases t with
    | nil => simp [frontmatterText, hcs, pySplit2Dashes, hsplit, hht, hh]
    | cons p2 t2 => simp [frontmatterText, hcs, pySplit2Dashes, hsplit, hht, hh]
  refine ⟨key, ?_⟩
  intro yaml rootPath folderName content kvs hcs hno hyaml
  have hfm : frontmatterText content.data = some (fmCut (content.data.drop 3)) := key _ hcs
  have hcut : fmCut (content.data.drop 3) = content.data.drop 3 := by
    simp [fmCut, hno]
  rw [hcut] at hfm
  simp [loadSkillMetadata, hfm, hyaml]

/-- Witness for C10: a marker file whose front-matter block has no closing
delimiter is parsed (the remainder of the file is the header text) and the
bundle is discovered with its declared name and description. -/
theorem c10_frontmatter_contract_witness :
    loadSkillMetadata yamlStub "skills" "pptx"
        "---\nname: pptx\ndescription: create PowerPoint files\n"
      = .ok (some ⟨"pptx", "create PowerPoint files", "skills/pptx", ""⟩)
    ∧ frontmatterText ("---\nname: pptx\ndescription: create PowerPoint files\n").data
      = some (("---\nname: pptx\ndescription: create PowerPoint files\n").data.drop 3) := by
  obtain ⟨k1, k2⟩ := c10_frontmatter_contract
  constructor
  · have h := k2 yamlStub "skills" "pptx"
      "---\nname: pptx\ndescription: create PowerPoint files\n"
      [("name", "pptx"), ("description", "create PowerPoint files")]
      (by decide) (by decide) (by rfl)
    rw [h]
    rfl
  · have h := k1 ("---\nname: pptx\ndescription: create PowerPoint files\n").data (by decide)
    rw [h]
    have hcut : fmCut (("---\nname: pptx\ndescription: create PowerPoint files\n").data.drop 3)
        = ("---\nname: pptx\ndescription: create PowerPoint files\n").data.drop 3 := by decide
    rw [hcut]

/-- Witness for C7: construction fails on a missing root; a marker-less
subdirectory is skipped with no trace; a bundle whose YAML raises is skipped
with a logged warning while the good bundle is still discovered; a root with
no valid bundle yields an empty mapping. -/
theorem c7_discovery_contract_witness :
    (∃ err, mkSkillLoader false "skills" = Except.error err)
    ∧ discoverSkills yamlStub "skills" [goodEntry, noMarkerEntry] ⟨[], [], []⟩
        = discoverSkills yamlStub "skills" [goodEntry] ⟨[], [], []⟩
    ∧ (discoverSkills yamlStub "skills" [goodEntry, badEntry] ⟨[], [], []⟩).1
        = (discoverSkills yamlStub "skills" [goodEntry] ⟨[], [], []⟩).1
    ∧ (∃ w1 w2, (discoverSkills yamlStub "skills" [goodEntry, badEntry] ⟨[], [], []⟩).2.1
        = w1 ++ ("Failed to load " ++ "broken" ++ ": " ++ "yaml scanner error") :: w2)
    ∧ (discoverSkills yamlStub "skills" [badEntry, noMarkerEntry] ⟨[], [], []⟩).2.2 = [] := by
  obtain ⟨k1, k2, k3, k4⟩ := c7_discovery_contract yamlStub "skills"
  have hbad : loadSkillMetadata yamlStub "skills" badEntry.name badEntry.markerContent
      = .error "yaml scanner error" := by rfl
  refine ⟨(k1 false "skills").mpr rfl, ?_, ?_, ?_, ?_⟩
  · exact k2 [goodEntry] [] noMarkerEntry ⟨[], [], []⟩ (by decide)
  · exact (k3 [goodEntry] [] badEntry ⟨[], [], []⟩ "yaml scanner error" (by decide) hbad).1
  · exact (k3 [goodEntry] [] badEntry ⟨[], [], []⟩ "yaml scanner error" (by decide) hbad).2.1
  · refine k4 [badEntry, noMarkerEntry] ?_
    intro e he hf md hcon
    rcases List.mem_cons.mp he with he1 | he2
    · subst he1
      rw [hbad] at hcon
      simp at hcon
    · have he3 : e = noMarkerEntry := by simpa using he2
      subst he3
      exact absurd hf (by decide)
